import Mathlib

/-!
# Authorization service (`authorization/service.go`, `authorization/casbin.go`)

A shallow embedding of the authorization package: the service entry points
`CheckAccess`, `AddPolicyFromCSV`, `AddPolicy`, `AddToGroup` and the loader
helpers `addPolicyFromString`, `addPolicyFromRecord`, `addPolicyIfNotExists`,
`addGroupingPolicyIfNotExists`.

The enforcer (`*casbin.Enforcer`) and the CSV reader (`encoding/csv`) are
libraries; the embedded functions take them as parameters and thread the
enforcer state explicitly.  Tracing spans and logging are not modelled.
-/

namespace Authorization

/-! ## Errors -/

/-- The value of `AccessDeniedError`, a struct of four strings. -/
structure AccessDeniedError where
  Subject : String
  Domain : String
  Object : String
  Action : String
  deriving DecidableEq, Repr

/-- Go `error` values that occur in the package.  A returned `error` is an
`Option GoError`, `none` being `nil`. -/
inductive GoError where
  /-- an error value handed out by a library (the enforcer, the CSV reader) -/
  | external (msg : String)
  /-- the value of `errors.Errorf` -/
  | fundamental (msg : String)
  /-- the value of `errors.Wrap cause msg` for a non-nil cause -/
  | withMessage (cause : GoError) (msg : String)
  /-- a value of type `AccessDeniedError` -/
  | accessDenied (e : AccessDeniedError)
  /-- a run-time panic (index out of range); not a returned value -/
  | runtimePanic (msg : String)
  deriving DecidableEq, Repr

/-- The method `AccessDeniedError.Error`. -/
def AccessDeniedError.Error (err : AccessDeniedError) : String :=
  if err.Object ≠ "" then
    "access denied for subject '" ++ err.Subject ++ "' and domain '" ++ err.Domain ++
      "' and object '" ++ err.Object ++ "' and action '" ++ err.Action ++ "'"
  else
    "access denied for subject '" ++ err.Subject ++ "' and domain '" ++ err.Domain ++
      "' and action '" ++ err.Action ++ "'"

/-- The message of an error: `errors.Wrap` prefixes the cause's message with
its own and a colon. -/
def GoError.Error : GoError → String
  | .external msg => msg
  | .fundamental msg => msg
  | .withMessage cause msg => msg ++ ": " ++ cause.Error
  | .accessDenied e => e.Error
  | .runtimePanic msg => msg

/-- The function `errors.Wrap`: nil stays nil. -/
def Wrap (err : Option GoError) (msg : String) : Option GoError :=
  match err with
  | none => none
  | some e => some (GoError.withMessage e msg)

/-- Whether a returned error is a value of the type `AccessDeniedError`. -/
def isAccessDenied : Option GoError → Bool
  | some (.accessDenied _) => true
  | _ => false

/-! ## The enforcer interface -/

/-- The enforcer methods the package calls, with their arguments. -/
inductive Call where
  | Enforce (rvals : List String)
  | HasPolicy (params : List String)
  | AddPolicy (params : List String)
  | HasGroupingPolicy (params : List String)
  | AddGroupingPolicy (params : List String)
  | AddPolicies (rules : List (List String))
  | AddGroupingPolicies (rules : List (List String))
  deriving DecidableEq, Repr

/-- An enforcer over a state `σ`: each method call yields the next state and
the Go pair `(bool, error)`. -/
abbrev Enforcer (σ : Type) := σ → Call → σ × Bool × Option GoError

/-- An enforcer that also records every call it receives, in order. -/
def traced {σ : Type} (enforcer : Enforcer σ) : Enforcer (σ × List Call) :=
  fun st c =>
    let r := enforcer st.1 c
    ((r.1, st.2 ++ [c]), r.2)

/-- The method `Reader.ReadAll` of `encoding/csv` as configured by the
loader: content to the Go pair `(records, error)`. -/
abbrev CsvReadAll := String → List (List String) × Option GoError

/-! ## `service.go` -/

def ObjectNone : String := "-"

structure CheckAccessRequest where
  Subject : String
  Domain : String
  Object : String
  Action : String
  deriving DecidableEq, Repr

structure AddPolicyRequest where
  Subject : String
  Domain : String
  Object : String
  Action : String
  deriving DecidableEq, Repr

/-- The method `Service.CheckAccess`. -/
def CheckAccess {σ : Type} (enforcer : Enforcer σ) (st : σ) (req : CheckAccessRequest) :
    σ × Option GoError :=
  let req := if req.Object = "" then { req with Object := ObjectNone } else req
  let r := enforcer st (Call.Enforce [req.Subject, req.Domain, req.Object, req.Action])
  match r.2.2 with
  | some err => (r.1, Wrap (some err) "failed to check permission")
  | none =>
    if !r.2.1 then
      (r.1, some (GoError.accessDenied ⟨req.Subject, req.Domain, req.Object, req.Action⟩))
    else
      (r.1, none)

/-- The rule slice `Service.AddPolicy` builds: the loop appends one rule per
request. -/
def AddPolicy.rules (reqs : List AddPolicyRequest) : List (List String) :=
  reqs.foldl
    (fun rules req =>
      let req := if req.Object = "" then { req with Object := ObjectNone } else req
      rules ++ [[req.Subject, req.Domain, req.Object, req.Action]])
    []

/-- The method `Service.AddPolicy`. -/
def AddPolicy {σ : Type} (enforcer : Enforcer σ) (st : σ) (reqs : List AddPolicyRequest) :
    σ × Option GoError :=
  let rules := AddPolicy.rules reqs
  let r := enforcer st (Call.AddPolicies rules)
  match r.2.2 with
  | some err => (r.1, Wrap (some err) "failed to add policies")
  | none => (r.1, none)

/-- The rule slice `Service.AddToGroup` builds. -/
def AddToGroup.rules (sub : String) (groups : List String) : List (List String) :=
  groups.foldl (fun rules group => rules ++ [[sub, group]]) []

/-- The method `Service.AddToGroup`. -/
def AddToGroup {σ : Type} (enforcer : Enforcer σ) (st : σ) (sub : String)
    (groups : List String) : σ × Option GoError :=
  let rules := AddToGroup.rules sub groups
  let r := enforcer st (Call.AddGroupingPolicies rules)
  match r.2.2 with
  | some err => (r.1, Wrap (some err) "failed to add grouping policies")
  | none => (r.1, none)

/-! ## `casbin.go` -/

/-- The function `addPolicyIfNotExists`. -/
def addPolicyIfNotExists {σ : Type} (enforcer : Enforcer σ) (st : σ) (params : List String) :
    σ × Option GoError :=
  let args := params
  let r := enforcer st (Call.HasPolicy args)
  match r.2.2 with
  | some err => (r.1, Wrap (some err) "failed to check policy")
  | none =>
    if r.2.1 then
      (r.1, none)
    else
      let r2 := enforcer r.1 (Call.AddPolicy args)
      match r2.2.2 with
      | some err => (r2.1, Wrap (some err) "failed to add policy")
      | none => (r2.1, none)

/-- The function `addGroupingPolicyIfNotExists`. -/
def addGroupingPolicyIfNotExists {σ : Type} (enforcer : Enforcer σ) (st : σ)
    (params : List String) : σ × Option GoError :=
  let args := params
  let r := enforcer st (Call.HasGroupingPolicy args)
  match r.2.2 with
  | some err => (r.1, Wrap (some err) "failed to check policy")
  | none =>
    if r.2.1 then
      (r.1, none)
    else
      let r2 := enforcer r.1 (Call.AddGroupingPolicy args)
      match r2.2.2 with
      | some err => (r2.1, Wrap (some err) "failed to add grouping policy")
      | none => (r2.1, none)

/-- The function `addPolicyFromRecord`.  Indexing an empty record panics. -/
def addPolicyFromRecord {σ : Type} (enforcer : Enforcer σ) (st : σ) (record : List String) :
    σ × Option GoError :=
  match record with
  | [] => (st, some (GoError.runtimePanic "index out of range [0] with length 0"))
  | record0 :: rest =>
    if record0 = "p" then
      let r := addPolicyIfNotExists enforcer st rest
      match r.2 with
      | some err => (r.1, Wrap (some err) "failed to add policy if not exists")
      | none => (r.1, none)
    else if record0 = "g" then
      let r := addGroupingPolicyIfNotExists enforcer st rest
      match r.2 with
      | some err => (r.1, Wrap (some err) "failed to add grouping policy if not exists")
      | none => (r.1, none)
    else
      (st, some (GoError.fundamental ("unknown policy type: " ++ record0)))

/-- The `for _, record := range records` loop of `addPolicyFromString`. -/
def addPolicyFromString.loop {σ : Type} (enforcer : Enforcer σ) :
    σ → List (List String) → σ × Option GoError
  | st, [] => (st, none)
  | st, record :: records =>
    if record.length = 0 then
      addPolicyFromString.loop enforcer st records
    else
      let r := addPolicyFromRecord enforcer st record
      match r.2 with
      | some err => (r.1, Wrap (some err) "failed to add policy from record")
      | none => addPolicyFromString.loop enforcer r.1 records

/-- The function `addPolicyFromString`: the whole content is read first. -/
def addPolicyFromString {σ : Type} (ReadAll : CsvReadAll) (enforcer : Enforcer σ) (st : σ)
    (policyFileContent : String) : σ × Option GoError :=
  let r := ReadAll policyFileContent
  match r.2 with
  | some err => (st, Wrap (some err) "failed to read policy content")
  | none => addPolicyFromString.loop enforcer st r.1

/-- The method `Service.AddPolicyFromCSV`. -/
def AddPolicyFromCSV {σ : Type} (ReadAll : CsvReadAll) (enforcer : Enforcer σ) (st : σ)
    (casbinPolicyContent : String) : σ × Option GoError :=
  let r := addPolicyFromString ReadAll enforcer st casbinPolicyContent
  match r.2 with
  | some err => (r.1, Wrap (some err) "failed to load csv policy")
  | none => (r.1, none)

/-! ## The rule model behind the enforcer -/

/-- Modelled from the spec: the rule model of the data-model section, held by
the enforcer (the enforcer library and the matching model file `model.conf`
are not among the sources): the policy rules and the grouping rules, in
insertion order. -/
structure RuleModel where
  p : List (List String)
  g : List (List String)
  deriving DecidableEq, Repr

/-- Modelled from the spec: the edges `subject → group` of the role-membership
graph of one domain, which `model.conf` would define: the grouping rules
`(subject, group, domain)` of that domain. -/
def RuleModel.edges (m : RuleModel) (domain : String) : List (String × String) :=
  m.g.filterMap fun rule =>
    match rule with
    | [sub, grp, dom] => if dom = domain then some (sub, grp) else none
    | _ => none

/-- Modelled from the spec: the reachability search of the matching engine
(part of the enforcer library): depth-first from `s`, dropping the edges
that leave a visited node. -/
def hasLinkFuel : Nat → List (String × String) → String → String → Bool
  | 0, _, s, t => s == t
  | n + 1, E, s, t =>
    s == t ||
      E.any fun e => e.1 == s && hasLinkFuel n (E.filter fun e' => e'.1 != s) e.2 t

/-- Modelled from the spec: `s` is `t` or a transitive member of `t`. -/
def hasLink (E : List (String × String)) (s t : String) : Bool :=
  hasLinkFuel E.length E s t

/-- Modelled from the spec: the matching expression of the matching-engine
section, which `model.conf` would state: some policy rule has the request's
domain, object and action, and its subject is reachable from the request's
subject. -/
def RuleModel.enforce (m : RuleModel) (s d o a : String) : Bool :=
  m.p.any fun rule =>
    match rule with
    | [ps, pd, po, pa] => pd == d && po == o && pa == a && hasLink (m.edges d) s ps
    | _ => false

/-- Modelled from the spec: merging a batch into a rule list without
duplicating a tuple. -/
def mergeRules (rules batch : List (List String)) : List (List String) :=
  batch.foldl (fun acc rule => if rule ∈ acc then acc else acc ++ [rule]) rules

/-- Modelled from the spec: the enforcer over the rule model (the enforcer
library is not among the sources).  Existence checks look the tuple up,
insertion adds an absent tuple, enforcement evaluates the matching
expression; none of them fails. -/
def ruleModelEnforcer : Enforcer RuleModel := fun m c =>
  match c with
  | .Enforce [s, d, o, a] => (m, m.enforce s d o a, none)
  | .Enforce _ => (m, false, some (GoError.external "invalid request size"))
  | .HasPolicy params => (m, decide (params ∈ m.p), none)
  | .AddPolicy params =>
    if params ∈ m.p then (m, false, none) else ({ m with p := m.p ++ [params] }, true, none)
  | .HasGroupingPolicy params => (m, decide (params ∈ m.g), none)
  | .AddGroupingPolicy params =>
    if params ∈ m.g then (m, false, none) else ({ m with g := m.g ++ [params] }, true, none)
  | .AddPolicies rules => ({ m with p := mergeRules m.p rules }, true, none)
  | .AddGroupingPolicies rules => ({ m with g := mergeRules m.g rules }, true, none)

/-! ## A CSV reader for the quote-free fragment -/

/-- Split a character list at every occurrence of `c`. -/
def splitAt (c : Char) : List Char → List (List Char)
  | [] => [[]]
  | x :: xs =>
    if x = c then [] :: splitAt c xs
    else
      match splitAt c xs with
      | [] => [[x]]
      | f :: fs => (x :: f) :: fs

/-- Drop one trailing carriage return, as the reader does at a line end. -/
def dropCR (line : List Char) : List Char :=
  if line.getLast? = some '\r' then line.dropLast else line

/-- Modelled from the spec: the rule text format, row-oriented,
comma-separated, any number of fields per row, blank rows skipped (the CSV
library that reads it is not among the sources); here for lines without a
double quote. -/
def plainRecords : List (List Char) → List (List String) × Option GoError
  | [] => ([], none)
  | line :: lines =>
    let line := dropCR line
    if line = [] then plainRecords lines
    else if Char.ofNat 34 ∈ line then
      ([], some (GoError.external "parse error: bare quote in non-quoted field"))
    else
      let r := plainRecords lines
      match r.2 with
      | some err => ([], some err)
      | none => ((splitAt ',' line).map String.mk :: r.1, none)

/-- Modelled from the spec: a reader of the rule text format for the
quote-free fragment of CSV, standing for `Reader.ReadAll` with
`FieldsPerRecord = -1` (the CSV library is not among the sources).  Content
with a double quote is reported as a syntax error: the library does so for a
quote inside an unquoted field; quoted fields are outside the fragment. -/
def readAllPlain : CsvReadAll := fun content =>
  plainRecords (splitAt '\n' content.data)

/-! ## Vocabulary of the statements -/

/-- The rule `Service.AddPolicy` is specified to submit for a request. -/
def policyRuleOf (req : AddPolicyRequest) : List String :=
  [req.Subject, req.Domain, if req.Object = "" then "-" else req.Object, req.Action]

/-- The enforcer's answer `(allowed, err)` to the query `Service.CheckAccess`
sends for a request. -/
def enforceAnswer {σ : Type} (enforcer : Enforcer σ) (st : σ) (req : CheckAccessRequest) :
    Bool × Option GoError :=
  (enforcer st
    (Call.Enforce
      [req.Subject, req.Domain, if req.Object = "" then "-" else req.Object, req.Action])).2

/-- A message names a text when the text occurs in it. -/
def mentions (msg text : String) : Prop := text.data <:+: msg.data

instance (msg text : String) : Decidable (mentions msg text) := by
  unfold mentions; infer_instance

/-- Membership of `s` in `t` within a domain of a rule model: `s` is `t`, or
is linked to it by a chain of grouping rules of that domain. -/
def RuleModel.memberOf (m : RuleModel) (domain : String) (s t : String) : Prop :=
  Relation.ReflTransGen (fun x y => [x, y, domain] ∈ m.g) s t

/-- Content whose last row has a quote inside an unquoted field, after two
well-formed rows. -/
def bareQuoteContent : String :=
  "p,alice,tenant1,doc1,read\ng,alice,editors,tenant1\np,bo" ++
    String.singleton (Char.ofNat 34) ++ "b,tenant1,doc1,read"

/-- The rule-model enforcer with a failing store for one policy rule: inserting
`bad` returns an error and changes nothing. -/
def rejecting (bad : List String) : Enforcer RuleModel := fun m c =>
  if c = Call.AddPolicy bad then (m, false, some (GoError.external "store: write failed"))
  else ruleModelEnforcer m c

/-- The enforcer state after a list of calls made in order, each on the state
the one before it left. -/
def runCalls {σ : Type} (enforcer : Enforcer σ) (st : σ) (calls : List Call) : σ :=
  calls.foldl (fun s c => (enforcer s c).1) st

/-- Existence check then insert, as calls: the check, followed by the
insertion exactly when the check answers "absent" without an error. -/
def checkThenInsert {σ : Type} (enforcer : Enforcer σ) (st : σ) (check insert : Call) :
    List Call :=
  if (enforcer st check).2.2 = none ∧ (enforcer st check).2.1 = false then [check, insert]
  else [check]

/-- The enforcer calls a record stands for, on a given state: check then
insert of its fields as a policy rule for "p", as a grouping rule for "g";
none for an empty record or another discriminator. -/
def recordCalls {σ : Type} (enforcer : Enforcer σ) (st : σ) (record : List String) :
    List Call :=
  match record with
  | [] => []
  | record0 :: fields =>
    if record0 = "p" then
      checkThenInsert enforcer st (Call.HasPolicy fields) (Call.AddPolicy fields)
    else if record0 = "g" then
      checkThenInsert enforcer st (Call.HasGroupingPolicy fields)
        (Call.AddGroupingPolicy fields)
    else []

/-- The enforcer calls a list of records stands for, record after record,
each on the state the calls before it left. -/
def loadCalls {σ : Type} (enforcer : Enforcer σ) : σ → List (List String) → List Call
  | _, [] => []
  | st, record :: records =>
    recordCalls enforcer st record ++
      loadCalls enforcer (runCalls enforcer st (recordCalls enforcer st record)) records

/-- Whether a call is an existence check. -/
def isExistenceCheck : Call → Bool
  | .HasPolicy _ => true
  | .HasGroupingPolicy _ => true
  | _ => false

/-- Whether a record is empty or a policy or grouping record. -/
def knownRecord (record : List String) : Prop :=
  match record with
  | [] => True
  | record0 :: _ => record0 = "p" ∨ record0 = "g"

/-- The existence checks of a list of records, in order: one per policy or
grouping record. -/
def existenceChecks (records : List (List String)) : List Call :=
  records.filterMap fun record =>
    match record with
    | [] => none
    | record0 :: fields =>
      if record0 = "p" then some (Call.HasPolicy fields)
      else if record0 = "g" then some (Call.HasGroupingPolicy fields)
      else none

/-- A record's rule is in the rule model: empty records have none. -/
def RuleModel.holds (m : RuleModel) (record : List String) : Prop :=
  match record with
  | [] => True
  | record0 :: fields =>
    (record0 = "p" ∧ fields ∈ m.p) ∨ (record0 = "g" ∧ fields ∈ m.g)

/-- The empty rule model. -/
def RuleModel.empty : RuleModel := ⟨[], []⟩

/-- The rule model after loading the three rows of the end-to-end scenario
into the empty one. -/
def scenarioModel : RuleModel :=
  (AddPolicyFromCSV readAllPlain ruleModelEnforcer RuleModel.empty
    "p,alice,tenant1,doc1,read\ng,alice,editors,tenant1\np,editors,tenant1,doc1,write").1

/-! ## Theorems -/

theorem AddPolicy_rules_foldl (reqs : List AddPolicyRequest) (acc : List (List String)) :
    reqs.foldl
      (fun rules req =>
        let req := if req.Object = "" then { req with Object := ObjectNone } else req
        rules ++ [[req.Subject, req.Domain, req.Object, req.Action]])
      acc = acc ++ reqs.map policyRuleOf := by
  induction reqs generalizing acc with
  | nil => simp
  | cons req reqs ih =>
    simp only [List.foldl_cons, List.map_cons]
    rw [ih]
    by_cases h : req.Object = "" <;> simp [policyRuleOf, h, ObjectNone]

theorem AddPolicy_rules_eq_map (reqs : List AddPolicyRequest) :
    AddPolicy.rules reqs = reqs.map policyRuleOf := by
  unfold AddPolicy.rules
  rw [AddPolicy_rules_foldl]
  simp

theorem AddToGroup_rules_foldl (sub : String) (groups : List String)
    (acc : List (List String)) :
    groups.foldl (fun rules group => rules ++ [[sub, group]]) acc =
      acc ++ groups.map fun group => [sub, group] := by
  induction groups generalizing acc with
  | nil => simp
  | cons group groups ih =>
    simp only [List.foldl_cons, List.map_cons]
    rw [ih]
    simp

theorem AddToGroup_rules_eq_map (sub : String) (groups : List String) :
    AddToGroup.rules sub groups = groups.map fun group => [sub, group] := by
  unfold AddToGroup.rules
  rw [AddToGroup_rules_foldl]
  simp

/-- `Service.AddPolicy` as one enforcer call. -/
theorem AddPolicy_eq {σ : Type} (enforcer : Enforcer σ) (st : σ)
    (reqs : List AddPolicyRequest) :
    AddPolicy enforcer st reqs =
      ((enforcer st (Call.AddPolicies (reqs.map policyRuleOf))).1,
        Wrap (enforcer st (Call.AddPolicies (reqs.map policyRuleOf))).2.2
          "failed to add policies") := by
  unfold AddPolicy
  rw [AddPolicy_rules_eq_map]
  dsimp only
  split <;> rename_i h <;> simp [h, Wrap]

/-- `Service.AddToGroup` as one enforcer call. -/
theorem AddToGroup_eq {σ : Type} (enforcer : Enforcer σ) (st : σ) (sub : String)
    (groups : List String) :
    AddToGroup enforcer st sub groups =
      ((enforcer st (Call.AddGroupingPolicies (groups.map fun group => [sub, group]))).1,
        Wrap (enforcer st (Call.AddGroupingPolicies (groups.map fun group => [sub, group]))).2.2
          "failed to add grouping policies") := by
  unfold AddToGroup
  rw [AddToGroup_rules_eq_map]
  dsimp only
  split <;> rename_i h <;> simp [h, Wrap]

/-- C7. `Service.AddPolicy` makes exactly one enforcer call, `AddPolicies`, on
the batch that has one rule per request in request order, the rule of a
request being `[Subject, Domain, Object', Action]` with `Object'` the
sentinel for an empty `Object`; its result is that call's result, wrapped on
error.  The batch does not depend on the enforcer or its state, and a second
identical call submits the identical batch again. -/
theorem AddPolicy_submits_one_batch {σ : Type} (enforcer : Enforcer σ) (st : σ)
    (log : List Call) (reqs : List AddPolicyRequest) :
    (AddPolicy (traced enforcer) (st, log) reqs).1.2 =
        log ++ [Call.AddPolicies (reqs.map policyRuleOf)] ∧
      (reqs.map policyRuleOf).length = reqs.length ∧
      (∀ (i : Nat) (h : i < reqs.length),
        (reqs.map policyRuleOf)[i]? =
          some [reqs[i].Subject, reqs[i].Domain,
            if reqs[i].Object = "" then "-" else reqs[i].Object, reqs[i].Action]) ∧
      AddPolicy enforcer st reqs =
        ((enforcer st (Call.AddPolicies (reqs.map policyRuleOf))).1,
          Wrap (enforcer st (Call.AddPolicies (reqs.map policyRuleOf))).2.2
            "failed to add policies") ∧
      (AddPolicy (traced enforcer) (AddPolicy (traced enforcer) (st, log) reqs).1 reqs).1.2 =
        log ++ [Call.AddPolicies (reqs.map policyRuleOf),
          Call.AddPolicies (reqs.map policyRuleOf)] := by
  refine ⟨?_, by simp, ?_, AddPolicy_eq enforcer st reqs, ?_⟩
  · rw [AddPolicy_eq]
    simp [traced]
  · intro i h
    simp [h, policyRuleOf]
  · rw [AddPolicy_eq, AddPolicy_eq]
    simp [traced]

/-- C8. `Service.AddToGroup` makes exactly one enforcer call,
`AddGroupingPolicies`, on the batch of the two-field rules `[sub, group]`, one
per group name in the order given, with the strings unchanged; its result is
that call's result, wrapped on error. -/
theorem AddToGroup_submits_one_batch {σ : Type} (enforcer : Enforcer σ) (st : σ)
    (log : List Call) (sub : String) (groups : List String) :
    (AddToGroup (traced enforcer) (st, log) sub groups).1.2 =
        log ++ [Call.AddGroupingPolicies (groups.map fun group => [sub, group])] ∧
      (groups.map fun group => [sub, group]).length = groups.length ∧
      (∀ (i : Nat) (h : i < groups.length),
        (groups.map fun group => [sub, group])[i]? = some [sub, groups[i]]) ∧
      AddToGroup enforcer st sub groups =
        ((enforcer st (Call.AddGroupingPolicies (groups.map fun group => [sub, group]))).1,
          Wrap (enforcer st (Call.AddGroupingPolicies (groups.map fun group => [sub, group]))).2.2
            "failed to add grouping policies") := by
  refine ⟨?_, by simp, ?_, AddToGroup_eq enforcer st sub groups⟩
  · rw [AddToGroup_eq]
    simp [traced]
  · intro i h
    simp [h]

/-- `Service.CheckAccess` in terms of the enforcer's answer. -/
theorem CheckAccess_eq {σ : Type} (enforcer : Enforcer σ) (st : σ) (req : CheckAccessRequest) :
    (CheckAccess enforcer st req).2 =
      match enforceAnswer enforcer st req with
      | (_, some err) => some (GoError.withMessage err "failed to check permission")
      | (false, none) =>
        some (GoError.accessDenied
          ⟨req.Subject, req.Domain, if req.Object = "" then "-" else req.Object, req.Action⟩)
      | (true, none) => none := by
  unfold CheckAccess enforceAnswer
  by_cases ho : req.Object = ""
  · simp only [ho, if_true, ObjectNone]
    rcases enforcer st (Call.Enforce [req.Subject, req.Domain, "-", req.Action]) with
      ⟨st1, b, _ | err⟩ <;> cases b <;> simp [Wrap]
  · simp only [ho, if_false]
    rcases enforcer st (Call.Enforce [req.Subject, req.Domain, req.Object, req.Action]) with
      ⟨st1, b, _ | err⟩ <;> cases b <;> simp [Wrap]

/-- The query `Service.CheckAccess` sends, on a recording enforcer. -/
theorem CheckAccess_traced_log {σ : Type} (enforcer : Enforcer σ) (st : σ) (log : List Call)
    (req : CheckAccessRequest) :
    (CheckAccess (traced enforcer) (st, log) req).1.2 =
      log ++ [Call.Enforce
        [req.Subject, req.Domain, if req.Object = "" then "-" else req.Object, req.Action]] := by
  unfold CheckAccess
  by_cases ho : req.Object = ""
  · simp only [ho, if_true, ObjectNone, traced]
    rcases enforcer st (Call.Enforce [req.Subject, req.Domain, "-", req.Action]) with
      ⟨st1, b, _ | err⟩ <;> cases b <;> simp [Wrap]
  · simp only [ho, if_false, traced]
    rcases enforcer st (Call.Enforce [req.Subject, req.Domain, req.Object, req.Action]) with
      ⟨st1, b, _ | err⟩ <;> cases b <;> simp [Wrap]

/-- C2. `Service.CheckAccess` maps the enforcer's answer to three disjoint
outcomes: nil exactly for `(true, nil)`, a value of type `AccessDeniedError`
exactly for `(false, nil)`, and the enforcer's error wrapped with "failed to
check permission" exactly when the enforcer returns an error, whatever boolean
accompanies it; the wrapped error is neither nil nor an `AccessDeniedError`. -/
theorem CheckAccess_three_outcomes {σ : Type} (enforcer : Enforcer σ) (st : σ)
    (req : CheckAccessRequest) :
    ((CheckAccess enforcer st req).2 = none ↔ enforceAnswer enforcer st req = (true, none)) ∧
      (isAccessDenied (CheckAccess enforcer st req).2 = true ↔
        enforceAnswer enforcer st req = (false, none)) ∧
      ((∃ cause, (CheckAccess enforcer st req).2 =
          some (GoError.withMessage cause "failed to check permission")) ↔
        (enforceAnswer enforcer st req).2 ≠ none) ∧
      (∀ (allowed : Bool) (err : GoError),
        enforceAnswer enforcer st req = (allowed, some err) →
          (CheckAccess enforcer st req).2 =
              some (GoError.withMessage err "failed to check permission") ∧
            (CheckAccess enforcer st req).2 ≠ none ∧
            isAccessDenied (CheckAccess enforcer st req).2 = false) := by
  rw [CheckAccess_eq]
  rcases enforceAnswer enforcer st req with ⟨b, _ | err⟩ <;> cases b <;>
    simp [isAccessDenied]

/-- C3. Object normalization in `Service.CheckAccess` and `Service.AddPolicy`:
a request with the empty object sends the query with the sentinel "-" and
returns what the request with object "-" returns, on denial the
`AccessDeniedError` with object "-"; a batch with an empty-object request is
the batch with that object set to "-"; and every submitted rule has four
fields, the object field never empty. -/
theorem empty_object_is_sentinel {σ : Type} (enforcer : Enforcer σ) (st : σ)
    (log : List Call) (s d a : String) (before after reqs : List AddPolicyRequest) :
    CheckAccess enforcer st ⟨s, d, "", a⟩ = CheckAccess enforcer st ⟨s, d, "-", a⟩ ∧
      (CheckAccess (traced enforcer) (st, log) ⟨s, d, "", a⟩).1.2 =
        log ++ [Call.Enforce [s, d, "-", a]] ∧
      (CheckAccess (traced enforcer) (st, log) ⟨s, d, "-", a⟩).1.2 =
        log ++ [Call.Enforce [s, d, "-", a]] ∧
      ((enforcer st (Call.Enforce [s, d, "-", a])).2 = (false, none) →
        (CheckAccess enforcer st ⟨s, d, "", a⟩).2 =
            some (GoError.accessDenied ⟨s, d, "-", a⟩) ∧
          (CheckAccess enforcer st ⟨s, d, "-", a⟩).2 =
            some (GoError.accessDenied ⟨s, d, "-", a⟩)) ∧
      AddPolicy.rules (before ++ ⟨s, d, "", a⟩ :: after) =
        AddPolicy.rules (before ++ ⟨s, d, "-", a⟩ :: after) ∧
      AddPolicy enforcer st (before ++ ⟨s, d, "", a⟩ :: after) =
        AddPolicy enforcer st (before ++ ⟨s, d, "-", a⟩ :: after) ∧
      (AddPolicy (traced enforcer) (st, log) reqs).1.2 =
        log ++ [Call.AddPolicies (AddPolicy.rules reqs)] ∧
      (∀ rule ∈ AddPolicy.rules reqs,
        ∃ ps pd po pa, rule = [ps, pd, po, pa] ∧ po ≠ "") := by
  have hrules : AddPolicy.rules (before ++ ⟨s, d, "", a⟩ :: after) =
      AddPolicy.rules (before ++ ⟨s, d, "-", a⟩ :: after) := by
    simp [AddPolicy_rules_eq_map, policyRuleOf]
  refine ⟨?_, ?_, ?_, ?_, hrules, ?_, ?_, ?_⟩
  · simp [CheckAccess, ObjectNone]
  · rw [CheckAccess_traced_log]; simp
  · rw [CheckAccess_traced_log]; simp
  · intro h
    constructor <;> rw [CheckAccess_eq] <;> simp [enforceAnswer, h]
  · unfold AddPolicy
    rw [hrules]
  · rw [AddPolicy_eq, AddPolicy_rules_eq_map]
    simp [traced]
  · intro rule hrule
    rw [AddPolicy_rules_eq_map, List.mem_map] at hrule
    obtain ⟨req, _, rfl⟩ := hrule
    refine ⟨req.Subject, req.Domain, if req.Object = "" then "-" else req.Object,
      req.Action, rfl, ?_⟩
    by_cases h : req.Object = "" <;> simp [h]

/-- C10. When the CSV reader rejects the content, `addPolicyFromString` and
`Service.AddPolicyFromCSV` return the reader's error wrapped and leave the
enforcer untouched: the state is the one before the call and no call has been
recorded, neither an existence check nor an insertion. -/
theorem reader_error_leaves_enforcer_untouched {σ : Type} (ReadAll : CsvReadAll)
    (enforcer : Enforcer σ) (st : σ) (log : List Call) (content : String) (err : GoError)
    (hread : (ReadAll content).2 = some err) :
    addPolicyFromString ReadAll enforcer st content =
        (st, some (GoError.withMessage err "failed to read policy content")) ∧
      AddPolicyFromCSV ReadAll enforcer st content =
        (st, some (GoError.withMessage
          (GoError.withMessage err "failed to read policy content")
          "failed to load csv policy")) ∧
      AddPolicyFromCSV ReadAll (traced enforcer) (st, log) content =
        ((st, log), some (GoError.withMessage
          (GoError.withMessage err "failed to read policy content")
          "failed to load csv policy")) := by
  have h1 : ∀ {τ : Type} (e : Enforcer τ) (t : τ), addPolicyFromString ReadAll e t content =
      (t, some (GoError.withMessage err "failed to read policy content")) := by
    intro τ e t
    simp [addPolicyFromString, hread, Wrap]
  refine ⟨h1 enforcer st, ?_, ?_⟩ <;> simp [AddPolicyFromCSV, h1, Wrap]

/-- A bare quote in the third row: the two well-formed rows before it are not
processed. -/
theorem reader_error_leaves_enforcer_untouched_witness :
    (readAllPlain bareQuoteContent).2 =
        some (GoError.external "parse error: bare quote in non-quoted field") ∧
      AddPolicyFromCSV readAllPlain (traced ruleModelEnforcer) (RuleModel.empty, [])
          bareQuoteContent =
        ((RuleModel.empty, []), some (GoError.withMessage
          (GoError.withMessage
            (GoError.external "parse error: bare quote in non-quoted field")
            "failed to read policy content")
          "failed to load csv policy")) :=
  ⟨by decide,
    (reader_error_leaves_enforcer_untouched readAllPlain ruleModelEnforcer RuleModel.empty []
      bareQuoteContent _ (by decide)).2.2⟩

/-! ### The record loop -/

/-- Records processed without error can be split off the front of the loop. -/
theorem loop_append {σ : Type} (enforcer : Enforcer σ) (st st1 : σ)
    (before rest : List (List String))
    (hbefore : addPolicyFromString.loop enforcer st before = (st1, none)) :
    addPolicyFromString.loop enforcer st (before ++ rest) =
      addPolicyFromString.loop enforcer st1 rest := by
  induction before generalizing st with
  | nil =>
    simp only [addPolicyFromString.loop, Prod.mk.injEq, and_true] at hbefore
    subst hbefore
    rfl
  | cons record before ih =>
    simp only [List.cons_append, addPolicyFromString.loop] at hbefore ⊢
    by_cases hlen : record.length = 0
    · simp only [hlen, if_true] at hbefore ⊢
      exact ih st hbefore
    · simp only [hlen, if_false] at hbefore ⊢
      rcases hrec : addPolicyFromRecord enforcer st record with ⟨st2, _ | err⟩
      · simp only [hrec] at hbefore ⊢
        exact ih st2 hbefore
      · simp [hrec, Wrap] at hbefore

/-- A failing non-empty record ends the loop with its error wrapped. -/
theorem loop_cons_fail {σ : Type} (enforcer : Enforcer σ) (st1 st2 : σ)
    (record : List String) (rest : List (List String)) (err : GoError)
    (hne : record ≠ [])
    (hrec : addPolicyFromRecord enforcer st1 record = (st2, some err)) :
    addPolicyFromString.loop enforcer st1 (record :: rest) =
      (st2, some (GoError.withMessage err "failed to add policy from record")) := by
  have hlen : record.length ≠ 0 := by
    cases record with
    | nil => exact absurd rfl hne
    | cons a l => simp
  simp [addPolicyFromString.loop, hlen, hrec, Wrap]

/-- The errors of `addPolicyFromRecord` on a non-empty record: an unknown
discriminator, or a failed existence check or insertion of the enforcer. -/
theorem record_error_cases {σ : Type} (enforcer : Enforcer σ) (st st2 : σ)
    (record : List String) (err : GoError) (hne : record ≠ [])
    (h : addPolicyFromRecord enforcer st record = (st2, some err)) :
    (∃ record0 fields, record = record0 :: fields ∧ record0 ≠ "p" ∧ record0 ≠ "g" ∧
        err = GoError.fundamental ("unknown policy type: " ++ record0) ∧ st2 = st) ∨
      (∃ fields cause, record = "p" :: fields ∧
        (err = GoError.withMessage (GoError.withMessage cause "failed to check policy")
            "failed to add policy if not exists" ∨
          err = GoError.withMessage (GoError.withMessage cause "failed to add policy")
            "failed to add policy if not exists")) ∨
      (∃ fields cause, record = "g" :: fields ∧
        (err = GoError.withMessage (GoError.withMessage cause "failed to check policy")
            "failed to add grouping policy if not exists" ∨
          err = GoError.withMessage (GoError.withMessage cause "failed to add grouping policy")
            "failed to add grouping policy if not exists")) := by
  cases record with
  | nil => exact absurd rfl hne
  | cons record0 fields =>
    by_cases hp : record0 = "p"
    · subst hp
      right; left
      rcases h1 : enforcer st (Call.HasPolicy fields) with ⟨st1, b, _ | e1⟩
      · cases b
        · rcases h2 : enforcer st1 (Call.AddPolicy fields) with ⟨st3, b2, _ | e2⟩
          · simp [addPolicyFromRecord, addPolicyIfNotExists, h1, h2, Wrap] at h
          · simp [addPolicyFromRecord, addPolicyIfNotExists, h1, h2, Wrap] at h
            exact ⟨fields, e2, rfl, Or.inr h.2.symm⟩
        · simp [addPolicyFromRecord, addPolicyIfNotExists, h1, Wrap] at h
      · simp [addPolicyFromRecord, addPolicyIfNotExists, h1, Wrap] at h
        exact ⟨fields, e1, rfl, Or.inl h.2.symm⟩
    · by_cases hg : record0 = "g"
      · subst hg
        right; right
        rcases h1 : enforcer st (Call.HasGroupingPolicy fields) with ⟨st1, b, _ | e1⟩
        · cases b
          · rcases h2 : enforcer st1 (Call.AddGroupingPolicy fields) with ⟨st3, b2, _ | e2⟩
            · simp [addPolicyFromRecord, addGroupingPolicyIfNotExists, h1, h2, Wrap] at h
            · simp [addPolicyFromRecord, addGroupingPolicyIfNotExists, h1, h2, Wrap] at h
              exact ⟨fields, e2, rfl, Or.inr h.2.symm⟩
          · simp [addPolicyFromRecord, addGroupingPolicyIfNotExists, h1, Wrap] at h
        · simp [addPolicyFromRecord, addGroupingPolicyIfNotExists, h1, Wrap] at h
          exact ⟨fields, e1, rfl, Or.inl h.2.symm⟩
      · left
        simp [addPolicyFromRecord, hp, hg] at h
        exact ⟨record0, fields, rfl, hp, hg, h.2.symm, h.1.symm⟩

/-! ### Unknown discriminators -/

theorem mentions_append_right (a b : String) : mentions (a ++ b) b := by
  unfold mentions
  rw [String.data_append]
  exact (List.suffix_append a.data b.data).isInfix

/-- C6, as the code has it. A non-empty record whose first field is neither
"p" nor "g", reached after the records before it were processed without error,
makes the loader fail without any enforcer call for that record; the error
message is "failed to load csv policy: failed to add policy from record:
unknown policy type: " followed by the first field.  It names the
discriminator and depends on nothing else of the row. -/
theorem unknown_discriminator_error {σ : Type} (ReadAll : CsvReadAll) (enforcer : Enforcer σ)
    (st st1 : σ) (content : String) (before later : List (List String))
    (record0 : String) (fields : List String)
    (hread : ReadAll content = (before ++ (record0 :: fields) :: later, none))
    (hbefore : addPolicyFromString.loop enforcer st before = (st1, none))
    (hp : record0 ≠ "p") (hg : record0 ≠ "g") :
    AddPolicyFromCSV ReadAll enforcer st content =
        (st1, some (GoError.withMessage
          (GoError.withMessage (GoError.fundamental ("unknown policy type: " ++ record0))
            "failed to add policy from record")
          "failed to load csv policy")) ∧
      (∀ err, (AddPolicyFromCSV ReadAll enforcer st content).2 = some err →
        err.Error =
            "failed to load csv policy: failed to add policy from record: unknown policy type: "
              ++ record0 ∧
          mentions err.Error record0) := by
  have hrec : addPolicyFromRecord enforcer st1 (record0 :: fields) =
      (st1, some (GoError.fundamental ("unknown policy type: " ++ record0))) := by
    simp [addPolicyFromRecord, hp, hg]
  have h1 : addPolicyFromString ReadAll enforcer st content =
      (st1, some (GoError.withMessage (GoError.fundamental ("unknown policy type: " ++ record0))
        "failed to add policy from record")) := by
    simp only [addPolicyFromString, hread]
    rw [loop_append enforcer st st1 before _ hbefore]
    exact loop_cons_fail enforcer st1 st1 _ later _ (by simp) hrec
  have h2 : AddPolicyFromCSV ReadAll enforcer st content =
      (st1, some (GoError.withMessage
        (GoError.withMessage (GoError.fundamental ("unknown policy type: " ++ record0))
          "failed to add policy from record")
        "failed to load csv policy")) := by
    simp [AddPolicyFromCSV, h1, Wrap]
  refine ⟨h2, ?_⟩
  intro err herr
  rw [h2] at herr
  simp only [Option.some.injEq] at herr
  subst herr
  have hmsg : (GoError.withMessage
        (GoError.withMessage (GoError.fundamental ("unknown policy type: " ++ record0))
          "failed to add policy from record")
        "failed to load csv policy").Error =
      "failed to load csv policy: failed to add policy from record: unknown policy type: "
        ++ record0 := by
    simp only [GoError.Error]
    apply String.ext
    simp [String.data_append]
  rw [hmsg]
  exact ⟨rfl, mentions_append_right _ _⟩

/-- The row `x,a,b,c` after a policy row. -/
theorem unknown_discriminator_error_witness :
    AddPolicyFromCSV readAllPlain (traced ruleModelEnforcer) (RuleModel.empty, [])
          "p,alice,tenant1,doc1,read\nx,a,b,c\ng,alice,editors,tenant1" =
        ((⟨[["alice", "tenant1", "doc1", "read"]], []⟩,
          [Call.HasPolicy ["alice", "tenant1", "doc1", "read"],
            Call.AddPolicy ["alice", "tenant1", "doc1", "read"]]),
          some (GoError.withMessage
            (GoError.withMessage (GoError.fundamental ("unknown policy type: " ++ "x"))
              "failed to add policy from record")
            "failed to load csv policy")) :=
  (unknown_discriminator_error readAllPlain (traced ruleModelEnforcer) (RuleModel.empty, [])
    (⟨[["alice", "tenant1", "doc1", "read"]], []⟩,
      [Call.HasPolicy ["alice", "tenant1", "doc1", "read"],
        Call.AddPolicy ["alice", "tenant1", "doc1", "read"]]) _
    [["p", "alice", "tenant1", "doc1", "read"]] [["g", "alice", "editors", "tenant1"]]
    "x" ["a", "b", "c"] (by decide) (by decide) (by decide) (by decide)).1

set_option maxRecDepth 100000 in
/-- C6, counterexample. The row `x,a,b,c` fails with the message "failed to
load csv policy: failed to add policy from record: unknown policy type: x",
in which neither the row nor its other fields occur, and the row `x,d,e,f` on
the third line of another content fails with the very same error: the error
does not identify the row. -/
theorem unknown_discriminator_error_omits_row :
    (AddPolicyFromCSV readAllPlain ruleModelEnforcer RuleModel.empty "x,a,b,c").2.map
          GoError.Error =
        some "failed to load csv policy: failed to add policy from record: unknown policy type: x" ∧
      ¬ mentions
          "failed to load csv policy: failed to add policy from record: unknown policy type: x"
          "x,a,b,c" ∧
      ¬ mentions
          "failed to load csv policy: failed to add policy from record: unknown policy type: x"
          "a,b,c" ∧
      (AddPolicyFromCSV readAllPlain ruleModelEnforcer RuleModel.empty
          "p,alice,tenant1,doc1,read\n\nx,d,e,f").2 =
        (AddPolicyFromCSV readAllPlain ruleModelEnforcer RuleModel.empty "x,a,b,c").2 := by
  refine ⟨by decide, by decide, by decide, by decide⟩

/-! ### Blank object fields in the loader -/

/-- C4, the code at a policy row with a blank object. For every enforcer
the loader's calls for the record `p,s,d,,a` carry the empty string as the
object: the existence check, and the insertion when it follows, are made on
`[s, d, "", a]`, not on the sentinel.  At the row `p,alice,tenant1,,read` on
the empty rule model the stored rule has the empty object, and
`Service.CheckAccess`, which turns an empty object into the sentinel, denies
the very request the row spells out, while `Service.AddPolicy` for the same
four fields stores the sentinel and the request is granted. -/
theorem loader_keeps_blank_object {σ : Type} (enforcer : Enforcer σ) (st : σ)
    (log : List Call) (s d a : String) :
    ((addPolicyFromRecord (traced enforcer) (st, log) ["p", s, d, "", a]).1.2 =
          log ++ [Call.HasPolicy [s, d, "", a]] ∨
        (addPolicyFromRecord (traced enforcer) (st, log) ["p", s, d, "", a]).1.2 =
          log ++ [Call.HasPolicy [s, d, "", a], Call.AddPolicy [s, d, "", a]]) ∧
      AddPolicyFromCSV readAllPlain (traced ruleModelEnforcer) (RuleModel.empty, [])
          "p,alice,tenant1,,read" =
        ((⟨[["alice", "tenant1", "", "read"]], []⟩,
          [Call.HasPolicy ["alice", "tenant1", "", "read"],
            Call.AddPolicy ["alice", "tenant1", "", "read"]]), none) ∧
      (CheckAccess ruleModelEnforcer
          (AddPolicyFromCSV readAllPlain ruleModelEnforcer RuleModel.empty
            "p,alice,tenant1,,read").1
          ⟨"alice", "tenant1", "", "read"⟩).2 =
        some (GoError.accessDenied ⟨"alice", "tenant1", "-", "read"⟩) ∧
      (AddPolicy ruleModelEnforcer RuleModel.empty [⟨"alice", "tenant1", "", "read"⟩]).1 =
        ⟨[["alice", "tenant1", "-", "read"]], []⟩ ∧
      (CheckAccess ruleModelEnforcer
          (AddPolicy ruleModelEnforcer RuleModel.empty [⟨"alice", "tenant1", "", "read"⟩]).1
          ⟨"alice", "tenant1", "", "read"⟩).2 = none := by
  refine ⟨?_, by decide, by decide, by decide, by decide⟩
  simp only [addPolicyFromRecord, addPolicyIfNotExists, traced, if_true]
  rcases enforcer st (Call.HasPolicy [s, d, "", a]) with ⟨st1, b, _ | err⟩
  · cases b
    · rcases enforcer st1 (Call.AddPolicy [s, d, "", a]) with ⟨st2, b2, _ | err2⟩ <;>
        simp [Wrap]
    · simp
  · simp [Wrap]

/-! ### The loader on the rule model -/

theorem record_p_ruleModel (m : RuleModel) (fields : List String) :
    addPolicyFromRecord ruleModelEnforcer m ("p" :: fields) =
      (if fields ∈ m.p then m else { m with p := m.p ++ [fields] }, none) := by
  by_cases h : fields ∈ m.p <;>
    simp [addPolicyFromRecord, addPolicyIfNotExists, ruleModelEnforcer, Wrap, h]

theorem record_g_ruleModel (m : RuleModel) (fields : List String) :
    addPolicyFromRecord ruleModelEnforcer m ("g" :: fields) =
      (if fields ∈ m.g then m else { m with g := m.g ++ [fields] }, none) := by
  by_cases h : fields ∈ m.g <;>
    simp [addPolicyFromRecord, addGroupingPolicyIfNotExists,
      ruleModelEnforcer, Wrap, h]

/-- One record on the rule model: it only adds, its own rule is present
afterwards, and it creates no duplicate. -/
theorem record_ruleModel_invariant (m m1 : RuleModel) (record : List String)
    (hne : record ≠ [])
    (h : addPolicyFromRecord ruleModelEnforcer m record = (m1, none)) :
    (∀ r ∈ m.p, r ∈ m1.p) ∧ (∀ r ∈ m.g, r ∈ m1.g) ∧ m1.holds record ∧
      (m.p.Nodup → m1.p.Nodup) ∧ (m.g.Nodup → m1.g.Nodup) := by
  cases record with
  | nil => exact absurd rfl hne
  | cons record0 fields =>
    by_cases hp : record0 = "p"
    · subst hp
      rw [record_p_ruleModel] at h
      simp only [Prod.mk.injEq, and_true] at h
      subst h
      by_cases hin : fields ∈ m.p
      · simp [hin, RuleModel.holds]
      · simp only [hin, if_false, RuleModel.holds, true_and]
        refine ⟨fun r hr => List.mem_append_left _ hr, fun r hr => hr, Or.inl (by simp),
          fun hnd => ?_, fun hnd => hnd⟩
        exact List.Nodup.append hnd (List.nodup_singleton _) (by simpa using hin)
    · by_cases hg : record0 = "g"
      · subst hg
        rw [record_g_ruleModel] at h
        simp only [Prod.mk.injEq, and_true] at h
        subst h
        by_cases hin : fields ∈ m.g
        · simp [hin, RuleModel.holds]
        · simp only [hin, if_false, RuleModel.holds, true_and]
          refine ⟨fun r hr => hr, fun r hr => List.mem_append_left _ hr, Or.inr (by simp),
            fun hnd => hnd, fun hnd => ?_⟩
          exact List.Nodup.append hnd (List.nodup_singleton _) (by simpa using hin)
      · simp [addPolicyFromRecord, hp, hg] at h

/-- Adding rules keeps the rules of a record present. -/
theorem holds_mono (m m1 : RuleModel) (record : List String)
    (hp : ∀ r ∈ m.p, r ∈ m1.p) (hg : ∀ r ∈ m.g, r ∈ m1.g) (h : m.holds record) :
    m1.holds record := by
  cases record with
  | nil => trivial
  | cons record0 fields =>
    rcases h with ⟨h0, hin⟩ | ⟨h0, hin⟩
    · exact Or.inl ⟨h0, hp _ hin⟩
    · exact Or.inr ⟨h0, hg _ hin⟩

/-- A successful pass of the record loop on the rule model only adds rules,
leaves the rule of every record present, and creates no duplicate. -/
theorem loop_ruleModel_invariant (records : List (List String)) (m m1 : RuleModel)
    (h : addPolicyFromString.loop ruleModelEnforcer m records = (m1, none)) :
    (∀ r ∈ m.p, r ∈ m1.p) ∧ (∀ r ∈ m.g, r ∈ m1.g) ∧
      (∀ record ∈ records, m1.holds record) ∧
      (m.p.Nodup → m1.p.Nodup) ∧ (m.g.Nodup → m1.g.Nodup) := by
  induction records generalizing m with
  | nil =>
    simp only [addPolicyFromString.loop, Prod.mk.injEq, and_true] at h
    subst h
    simp
  | cons record records ih =>
    simp only [addPolicyFromString.loop] at h
    by_cases hlen : record.length = 0
    · simp only [hlen, if_true] at h
      obtain ⟨h1, h2, h3, h4, h5⟩ := ih m h
      refine ⟨h1, h2, ?_, h4, h5⟩
      intro r hr
      rcases List.mem_cons.mp hr with rfl | hr
      · rw [List.length_eq_zero.mp hlen]; trivial
      · exact h3 r hr
    · simp only [hlen, if_false] at h
      rcases hrec : addPolicyFromRecord ruleModelEnforcer m record with ⟨m2, _ | err⟩
      · simp only [hrec] at h
        have hne : record ≠ [] := fun hnil => hlen (by simp [hnil])
        obtain ⟨a1, a2, a3, a4, a5⟩ := record_ruleModel_invariant m m2 record hne hrec
        obtain ⟨h1, h2, h3, h4, h5⟩ := ih m2 h
        refine ⟨fun r hr => h1 r (a1 r hr), fun r hr => h2 r (a2 r hr), ?_,
          fun hnd => h4 (a4 hnd), fun hnd => h5 (a5 hnd)⟩
        intro r hr
        rcases List.mem_cons.mp hr with rfl | hr
        · exact holds_mono m2 m1 _ h1 h2 a3
        · exact h3 r hr
      · simp [hrec, Wrap] at h

/-- When the rule of every record is present, the record loop on the rule
model makes existence checks only and changes nothing. -/
theorem loop_ruleModel_noop (records : List (List String)) (m : RuleModel) (log : List Call)
    (h : ∀ record ∈ records, m.holds record) :
    addPolicyFromString.loop ruleModelEnforcer m records = (m, none) ∧
      addPolicyFromString.loop (traced ruleModelEnforcer) (m, log) records =
        ((m, log ++ existenceChecks records), none) := by
  induction records generalizing log with
  | nil => simp [addPolicyFromString.loop, existenceChecks]
  | cons record records ih =>
    have hrest : ∀ r ∈ records, m.holds r := fun r hr => h r (List.mem_cons_of_mem _ hr)
    have hrec := h record (List.mem_cons_self _ _)
    cases record with
    | nil =>
      simp only [addPolicyFromString.loop, List.length_nil, if_true]
      have := ih log hrest
      simpa [existenceChecks] using this
    | cons record0 fields =>
      rcases hrec with ⟨h0, hin⟩ | ⟨h0, hin⟩
      · subst h0
        have e1 : addPolicyFromRecord ruleModelEnforcer m ("p" :: fields) = (m, none) := by
          rw [record_p_ruleModel]; simp [hin]
        have e2 : addPolicyFromRecord (traced ruleModelEnforcer) (m, log) ("p" :: fields) =
            ((m, log ++ [Call.HasPolicy fields]), none) := by
          simp [addPolicyFromRecord, addPolicyIfNotExists, ruleModelEnforcer, traced, hin]
        have := ih (log ++ [Call.HasPolicy fields]) hrest
        simp only [addPolicyFromString.loop, List.length_cons, Nat.add_one_ne_zero, if_false,
          e1, e2, this.1, this.2, true_and]
        simp [existenceChecks]
      · subst h0
        have e1 : addPolicyFromRecord ruleModelEnforcer m ("g" :: fields) = (m, none) := by
          rw [record_g_ruleModel]; simp [hin]
        have e2 : addPolicyFromRecord (traced ruleModelEnforcer) (m, log) ("g" :: fields) =
            ((m, log ++ [Call.HasGroupingPolicy fields]), none) := by
          simp [addPolicyFromRecord, addGroupingPolicyIfNotExists, ruleModelEnforcer, traced, hin]
        have := ih (log ++ [Call.HasGroupingPolicy fields]) hrest
        simp only [addPolicyFromString.loop, List.length_cons, Nat.add_one_ne_zero, if_false,
          e1, e2, this.1, this.2, true_and]
        simp [existenceChecks]

/-- C5. Idempotence of bulk loading on the rule model: when loading content
`C` into a rule model `M` succeeds with rule model `M1`, loading `C` again
into `M1` succeeds and leaves `M1` as it is; the second pass makes existence
checks only, one per policy or grouping record, and no insertion.  If the
policy rules (the grouping rules) of `M` have no duplicate, neither have
those of `M1`, also when `C` repeats a row. -/
theorem bulk_load_idempotent (ReadAll : CsvReadAll) (M M1 : RuleModel) (C : String)
    (hload : addPolicyFromString ReadAll ruleModelEnforcer M C = (M1, none)) :
    addPolicyFromString ReadAll ruleModelEnforcer M1 C = (M1, none) ∧
      AddPolicyFromCSV ReadAll ruleModelEnforcer M1 C = (M1, none) ∧
      addPolicyFromString ReadAll (traced ruleModelEnforcer) (M1, []) C =
        ((M1, existenceChecks (ReadAll C).1), none) ∧
      (M.p.Nodup → M1.p.Nodup) ∧ (M.g.Nodup → M1.g.Nodup) := by
  rcases hread : ReadAll C with ⟨records, _ | err⟩
  · simp only [addPolicyFromString, hread] at hload ⊢
    obtain ⟨_, _, h3, h4, h5⟩ := loop_ruleModel_invariant records M M1 hload
    have hn := loop_ruleModel_noop records M1 [] h3
    refine ⟨hn.1, ?_, by simpa using hn.2, h4, h5⟩
    simp [AddPolicyFromCSV, addPolicyFromString, hread, hn.1]
  · simp [addPolicyFromString, hread, Wrap] at hload

/-- Loading a content that repeats a row into the empty rule model, twice. -/
theorem bulk_load_idempotent_witness :
    addPolicyFromString readAllPlain ruleModelEnforcer RuleModel.empty
          "p,alice,tenant1,doc1,read\ng,alice,editors,tenant1\n\np,editors,tenant1,doc1,write\np,alice,tenant1,doc1,read\n" =
        (⟨[["alice", "tenant1", "doc1", "read"], ["editors", "tenant1", "doc1", "write"]],
          [["alice", "editors", "tenant1"]]⟩, none) ∧
      addPolicyFromString readAllPlain (traced ruleModelEnforcer)
          (⟨[["alice", "tenant1", "doc1", "read"], ["editors", "tenant1", "doc1", "write"]],
            [["alice", "editors", "tenant1"]]⟩, [])
          "p,alice,tenant1,doc1,read\ng,alice,editors,tenant1\n\np,editors,tenant1,doc1,write\np,alice,tenant1,doc1,read\n" =
        ((⟨[["alice", "tenant1", "doc1", "read"], ["editors", "tenant1", "doc1", "write"]],
          [["alice", "editors", "tenant1"]]⟩,
          [Call.HasPolicy ["alice", "tenant1", "doc1", "read"],
            Call.HasGroupingPolicy ["alice", "editors", "tenant1"],
            Call.HasPolicy ["editors", "tenant1", "doc1", "write"],
            Call.HasPolicy ["alice", "tenant1", "doc1", "read"]]), none) :=
  ⟨by decide,
    (bulk_load_idempotent readAllPlain RuleModel.empty
      ⟨[["alice", "tenant1", "doc1", "read"], ["editors", "tenant1", "doc1", "write"]],
        [["alice", "editors", "tenant1"]]⟩
      "p,alice,tenant1,doc1,read\ng,alice,editors,tenant1\n\np,editors,tenant1,doc1,write\np,alice,tenant1,doc1,read\n"
      (by decide)).2.2.1⟩

/-! ### The matching engine on the rule model -/

/-- The search finds only chains of edges. -/
theorem hasLinkFuel_sound (n : Nat) (E : List (String × String)) (s t : String)
    (h : hasLinkFuel n E s t = true) :
    Relation.ReflTransGen (fun x y => (x, y) ∈ E) s t := by
  induction n generalizing E s with
  | zero =>
    simp only [hasLinkFuel, beq_iff_eq] at h
    subst h
    exact Relation.ReflTransGen.refl
  | succ n ih =>
    simp only [hasLinkFuel, Bool.or_eq_true, beq_iff_eq, List.any_eq_true, Bool.and_eq_true] at h
    rcases h with h | ⟨e, he, hs, hrest⟩
    · subst h
      exact Relation.ReflTransGen.refl
    · have hchain := ih _ _ hrest
      have hmono : Relation.ReflTransGen (fun x y => (x, y) ∈ E) e.2 t :=
        Relation.ReflTransGen.mono (fun x y hxy => (List.mem_filter.mp hxy).1) hchain
      refine Relation.ReflTransGen.head ?_ hmono
      subst hs
      exact he

/-- A chain either never leaves `s`, or can be cut at its last visit of `s`. -/
theorem chain_last_visit (R : String → String → Prop) (s a t : String)
    (h : Relation.ReflTransGen R a t) :
    Relation.ReflTransGen (fun x y => R x y ∧ x ≠ s) a t ∨
      ∃ u, R s u ∧ Relation.ReflTransGen (fun x y => R x y ∧ x ≠ s) u t := by
  induction h using Relation.ReflTransGen.head_induction_on with
  | refl => exact Or.inl Relation.ReflTransGen.refl
  | @head a c hab _ ih =>
    rcases ih with ih | ih
    · by_cases has : a = s
      · subst has
        exact Or.inr ⟨c, hab, ih⟩
      · exact Or.inl (Relation.ReflTransGen.head ⟨hab, has⟩ ih)
    · exact Or.inr ih

/-- The search finds every chain, given fuel for each edge. -/
theorem hasLinkFuel_complete (n : Nat) (E : List (String × String)) (s t : String)
    (hn : E.length ≤ n)
    (h : Relation.ReflTransGen (fun x y => (x, y) ∈ E) s t) :
    hasLinkFuel n E s t = true := by
  induction n generalizing E s with
  | zero =>
    have hE : E = [] := List.length_eq_zero.mp (Nat.le_zero.mp hn)
    subst hE
    rcases Relation.ReflTransGen.cases_head h with h | ⟨c, hc, _⟩
    · simp [hasLinkFuel, h]
    · simp at hc
  | succ n ih =>
    simp only [hasLinkFuel, Bool.or_eq_true, beq_iff_eq, List.any_eq_true, Bool.and_eq_true]
    rcases chain_last_visit (fun x y => (x, y) ∈ E) s s t h with h1 | ⟨u, hu, h1⟩
    · rcases Relation.ReflTransGen.cases_head h1 with h2 | ⟨c, hc, _⟩
      · exact Or.inl h2
      · exact absurd rfl hc.2
    · right
      refine ⟨(s, u), hu, rfl, ih _ _ ?_ ?_⟩
      · have hlt : (E.filter fun e' => e'.1 != s).length < E.length := by
          apply List.length_filter_lt_length_iff_exists.mpr
          exact ⟨(s, u), hu, by simp⟩
        omega
      · refine Relation.ReflTransGen.mono ?_ h1
        intro x y hxy
        exact List.mem_filter.mpr ⟨hxy.1, by simpa using hxy.2⟩

theorem hasLink_iff (E : List (String × String)) (s t : String) :
    hasLink E s t = true ↔ Relation.ReflTransGen (fun x y => (x, y) ∈ E) s t :=
  ⟨hasLinkFuel_sound _ E s t, hasLinkFuel_complete _ E s t (Nat.le_refl _)⟩

theorem mem_edges (m : RuleModel) (d x y : String) :
    (x, y) ∈ m.edges d ↔ [x, y, d] ∈ m.g := by
  unfold RuleModel.edges
  rw [List.mem_filterMap]
  constructor
  · rintro ⟨rule, hrule, hsome⟩
    split at hsome
    · rename_i sub grp dom
      by_cases hd : dom = d
      · simp only [hd, if_true, Option.some.injEq, Prod.mk.injEq] at hsome
        obtain ⟨rfl, rfl⟩ := hsome
        subst hd
        exact hrule
      · simp [hd] at hsome
    · simp at hsome
  · intro h
    exact ⟨[x, y, d], h, by simp⟩


theorem memberOf_iff_hasLink (m : RuleModel) (d s t : String) :
    m.memberOf d s t ↔ hasLink (m.edges d) s t = true := by
  rw [hasLink_iff]
  unfold RuleModel.memberOf
  constructor <;> intro h <;> refine Relation.ReflTransGen.mono ?_ h <;> intro x y hxy
  · exact (mem_edges m d x y).mpr hxy
  · exact (mem_edges m d x y).mp hxy

/-- The matching expression grants exactly when a policy rule with the
request's domain, object and action has a subject the request's subject is a
member of. -/
theorem enforce_iff (m : RuleModel) (s d o a : String) :
    m.enforce s d o a = true ↔ ∃ ps, [ps, d, o, a] ∈ m.p ∧ m.memberOf d s ps := by
  unfold RuleModel.enforce
  rw [List.any_eq_true]
  constructor
  · rintro ⟨rule, hrule, hmatch⟩
    split at hmatch
    · rename_i ps pd po pa
      simp only [Bool.and_eq_true, beq_iff_eq] at hmatch
      obtain ⟨⟨⟨rfl, rfl⟩, rfl⟩, hlink⟩ := hmatch
      exact ⟨ps, hrule, (memberOf_iff_hasLink m pd s ps).mpr hlink⟩
    · simp at hmatch
  · rintro ⟨ps, hrule, hmem⟩
    exact ⟨[ps, d, o, a], hrule, by simp [(memberOf_iff_hasLink m d s ps).mp hmem]⟩

/-- The end-to-end scenario on the rule model. -/
theorem scenario_outcomes :
    scenarioModel =
        ⟨[["alice", "tenant1", "doc1", "read"], ["editors", "tenant1", "doc1", "write"]],
          [["alice", "editors", "tenant1"]]⟩ ∧
      (CheckAccess ruleModelEnforcer scenarioModel ⟨"alice", "tenant1", "doc1", "read"⟩).2 =
        none ∧
      (CheckAccess ruleModelEnforcer scenarioModel ⟨"alice", "tenant1", "doc1", "write"⟩).2 =
        none ∧
      (CheckAccess ruleModelEnforcer scenarioModel ⟨"alice", "tenant2", "doc1", "read"⟩).2 =
        some (GoError.accessDenied ⟨"alice", "tenant2", "doc1", "read"⟩) ∧
      (CheckAccess ruleModelEnforcer scenarioModel ⟨"bob", "tenant1", "doc1", "read"⟩).2 =
        some (GoError.accessDenied ⟨"bob", "tenant1", "doc1", "read"⟩) := by
  refine ⟨by decide, by decide, by decide, by decide, by decide⟩

/-- C1. On the rule model, `Service.CheckAccess` for a request `(s, d, o, a)`,
with `o` replaced by the sentinel "-" when empty, returns nil exactly when the
model has a policy rule `(ps, d, o, a)` such that `s` is `ps` or is linked to
`ps` by a chain of grouping rules of domain `d`; otherwise it returns the
`AccessDeniedError` of the request; the model is left as it is.  In the
end-to-end scenario alice may read and write doc1 in tenant1, and alice in
tenant2 and bob in tenant1 are denied. -/
theorem CheckAccess_grants_iff_rule_reachable (m : RuleModel) (s d o a : String) :
    ((CheckAccess ruleModelEnforcer m ⟨s, d, o, a⟩).2 = none ↔
        ∃ ps, [ps, d, if o = "" then "-" else o, a] ∈ m.p ∧ m.memberOf d s ps) ∧
      ((¬ ∃ ps, [ps, d, if o = "" then "-" else o, a] ∈ m.p ∧ m.memberOf d s ps) →
        (CheckAccess ruleModelEnforcer m ⟨s, d, o, a⟩).2 =
          some (GoError.accessDenied ⟨s, d, if o = "" then "-" else o, a⟩)) ∧
      (CheckAccess ruleModelEnforcer m ⟨s, d, o, a⟩).1 = m ∧
      (CheckAccess ruleModelEnforcer scenarioModel ⟨"alice", "tenant1", "doc1", "read"⟩).2 =
        none ∧
      (CheckAccess ruleModelEnforcer scenarioModel ⟨"alice", "tenant1", "doc1", "write"⟩).2 =
        none ∧
      (CheckAccess ruleModelEnforcer scenarioModel ⟨"alice", "tenant2", "doc1", "read"⟩).2 =
        some (GoError.accessDenied ⟨"alice", "tenant2", "doc1", "read"⟩) ∧
      (CheckAccess ruleModelEnforcer scenarioModel ⟨"bob", "tenant1", "doc1", "read"⟩).2 =
        some (GoError.accessDenied ⟨"bob", "tenant1", "doc1", "read"⟩) := by
  have hans : enforceAnswer ruleModelEnforcer m ⟨s, d, o, a⟩ =
      (m.enforce s d (if o = "" then "-" else o) a, none) := by
    simp [enforceAnswer, ruleModelEnforcer]
  have hiff := enforce_iff m s d (if o = "" then "-" else o) a
  refine ⟨?_, ?_, ?_, scenario_outcomes.2⟩
  · rw [CheckAccess_eq, hans, ← hiff]
    cases m.enforce s d (if o = "" then "-" else o) a <;> simp
  · intro hno
    rw [← hiff] at hno
    rw [CheckAccess_eq, hans]
    cases hb : m.enforce s d (if o = "" then "-" else o) a
    · simp
    · exact absurd hb hno
  · unfold CheckAccess
    by_cases ho : o = ""
    · simp only [ho, if_true, ObjectNone, ruleModelEnforcer]
      cases m.enforce s d "-" a <;> simp
    · simp only [ho, if_false, ruleModelEnforcer]
      cases m.enforce s d o a <;> simp

/-! ### The calls and states of the record loop -/

theorem runCalls_append {σ : Type} (enforcer : Enforcer σ) (st : σ) (a b : List Call) :
    runCalls enforcer st (a ++ b) = runCalls enforcer (runCalls enforcer st a) b := by
  simp [runCalls, List.foldl_append]

theorem loadCalls_append {σ : Type} (enforcer : Enforcer σ) (st : σ)
    (a b : List (List String)) :
    loadCalls enforcer st (a ++ b) =
      loadCalls enforcer st a ++
        loadCalls enforcer (runCalls enforcer st (loadCalls enforcer st a)) b := by
  induction a generalizing st with
  | nil => simp [loadCalls, runCalls]
  | cons record a ih =>
    rw [List.cons_append]
    simp only [loadCalls, runCalls_append, List.append_assoc]
    rw [ih]

/-- One record on a recording enforcer: the state is the one the record's
calls leave, the log grows by exactly those calls, and the error is the one
of the plain run. -/
theorem record_traced {σ : Type} (enforcer : Enforcer σ) (st : σ) (log : List Call)
    (record : List String) :
    addPolicyFromRecord (traced enforcer) (st, log) record =
        ((runCalls enforcer st (recordCalls enforcer st record),
            log ++ recordCalls enforcer st record),
          (addPolicyFromRecord enforcer st record).2) ∧
      (addPolicyFromRecord enforcer st record).1 =
        runCalls enforcer st (recordCalls enforcer st record) := by
  cases record with
  | nil => simp [addPolicyFromRecord, recordCalls, runCalls]
  | cons record0 fields =>
    by_cases hp : record0 = "p"
    · subst hp
      rcases h1 : enforcer st (Call.HasPolicy fields) with ⟨st1, b, _ | e1⟩
      · cases b
        · rcases h2 : enforcer st1 (Call.AddPolicy fields) with ⟨st3, b2, _ | e2⟩ <;>
            simp [addPolicyFromRecord, addPolicyIfNotExists, traced, recordCalls,
              checkThenInsert, runCalls, h1, h2, Wrap]
        · simp [addPolicyFromRecord, addPolicyIfNotExists, traced, recordCalls,
            checkThenInsert, runCalls, h1, Wrap]
      · simp [addPolicyFromRecord, addPolicyIfNotExists, traced, recordCalls,
          checkThenInsert, runCalls, h1, Wrap]
    · by_cases hg : record0 = "g"
      · subst hg
        rcases h1 : enforcer st (Call.HasGroupingPolicy fields) with ⟨st1, b, _ | e1⟩
        · cases b
          · rcases h2 : enforcer st1 (Call.AddGroupingPolicy fields) with ⟨st3, b2, _ | e2⟩ <;>
              simp [addPolicyFromRecord, addGroupingPolicyIfNotExists, traced, recordCalls,
                checkThenInsert, runCalls, h1, h2, Wrap]
          · simp [addPolicyFromRecord, addGroupingPolicyIfNotExists, traced, recordCalls,
              checkThenInsert, runCalls, h1, Wrap]
        · simp [addPolicyFromRecord, addGroupingPolicyIfNotExists, traced, recordCalls,
            checkThenInsert, runCalls, h1, Wrap]
      · simp [addPolicyFromRecord, recordCalls, runCalls, hp, hg]

/-- A pass of the record loop without error, on a recording enforcer: the
state is the one the records' calls leave and the log grows by exactly those
calls. -/
theorem loop_traced_ok {σ : Type} (enforcer : Enforcer σ) (records : List (List String))
    (st st1 : σ) (log : List Call)
    (h : addPolicyFromString.loop enforcer st records = (st1, none)) :
    addPolicyFromString.loop (traced enforcer) (st, log) records =
        ((st1, log ++ loadCalls enforcer st records), none) ∧
      st1 = runCalls enforcer st (loadCalls enforcer st records) := by
  induction records generalizing st log with
  | nil =>
    simp only [addPolicyFromString.loop, Prod.mk.injEq, and_true] at h
    subst h
    simp [addPolicyFromString.loop, loadCalls, runCalls]
  | cons record records ih =>
    simp only [addPolicyFromString.loop] at h ⊢
    by_cases hlen : record.length = 0
    · have hnil : record = [] := List.length_eq_zero.mp hlen
      subst hnil
      simp only [List.length_nil, if_true] at h ⊢
      have := ih st log h
      simpa [loadCalls, recordCalls, runCalls] using this
    · simp only [hlen, if_false] at h ⊢
      have hr := record_traced enforcer st log record
      rcases hrec : addPolicyFromRecord enforcer st record with ⟨st2, _ | err⟩
      · rw [hrec] at hr
        simp only [hrec] at h
        have hst2 : st2 = runCalls enforcer st (recordCalls enforcer st record) := hr.2
        have := ih st2 (log ++ recordCalls enforcer st record) h
        rw [hr.1, ← hst2]
        simp only [this.1, loadCalls, ← hst2, List.append_assoc, true_and]
        rw [runCalls_append, ← hst2]
        exact this.2
      · simp [hrec, Wrap] at h

/-- The existence checks among the calls of a list of records are one per
policy or grouping record, in the order of the records. -/
theorem loadCalls_checks {σ : Type} (enforcer : Enforcer σ) (st : σ)
    (records : List (List String)) :
    (loadCalls enforcer st records).filter isExistenceCheck = existenceChecks records := by
  induction records generalizing st with
  | nil => simp [loadCalls, existenceChecks]
  | cons record records ih =>
    have htail : existenceChecks (record :: records) =
        (recordCalls enforcer st record).filter isExistenceCheck ++ existenceChecks records := by
      cases record with
      | nil => simp [existenceChecks, recordCalls]
      | cons record0 fields =>
        by_cases hp : record0 = "p"
        · subst hp
          by_cases hc : (enforcer st (Call.HasPolicy fields)).2.2 = none ∧
              (enforcer st (Call.HasPolicy fields)).2.1 = false <;>
            simp [existenceChecks, recordCalls, checkThenInsert, hc, isExistenceCheck]
        · by_cases hg : record0 = "g"
          · subst hg
            by_cases hc : (enforcer st (Call.HasGroupingPolicy fields)).2.2 = none ∧
                (enforcer st (Call.HasGroupingPolicy fields)).2.1 = false <;>
              simp [existenceChecks, recordCalls, checkThenInsert, hc, isExistenceCheck]
          · simp [existenceChecks, recordCalls, hp, hg]
    simp only [loadCalls, List.filter_append, ih, htail]

/-- Policy and grouping records never fail on the rule model. -/
theorem loop_ruleModel_succeeds (records : List (List String)) (m : RuleModel)
    (h : ∀ record ∈ records, knownRecord record) :
    ∃ m1, addPolicyFromString.loop ruleModelEnforcer m records = (m1, none) := by
  induction records generalizing m with
  | nil => exact ⟨m, rfl⟩
  | cons record records ih =>
    have hrest : ∀ r ∈ records, knownRecord r := fun r hr => h r (List.mem_cons_of_mem _ hr)
    have hrec := h record (List.mem_cons_self _ _)
    cases record with
    | nil => simpa [addPolicyFromString.loop] using ih m hrest
    | cons record0 fields =>
      rcases hrec with h0 | h0
      · subst h0
        simp only [addPolicyFromString.loop, List.length_cons, Nat.add_one_ne_zero, if_false,
          record_p_ruleModel]
        exact ih _ hrest
      · subst h0
        simp only [addPolicyFromString.loop, List.length_cons, Nat.add_one_ne_zero, if_false,
          record_g_ruleModel]
        exact ih _ hrest

/-- C9. Row-by-row processing without rollback.  When the records before
record k are processed without error and the non-empty record k fails with
`err`, the loader returns `err` wrapped with "failed to add policy from
record", whatever records follow.  The enforcer has then received, in order,
exactly the calls of the records before k and of record k, each record's
existence check followed by its insertion when the check answered "absent",
and no call of a later record; the existence checks among them are one per
policy or grouping record up to k, in record order.  The final state is the
state these calls leave when made one after the other from the initial
state: nothing is rolled back or lost.  The error of record k is an unknown
discriminator, or a failed existence check or insertion.  On the rule model,
where only an unknown discriminator fails, the rule of every record before k
is in the final model, together with all rules it had before. -/
theorem loader_stops_at_first_failing_record {σ : Type} (ReadAll : CsvReadAll)
    (enforcer : Enforcer σ) (st st1 st2 : σ) (content : String)
    (before later : List (List String)) (record : List String) (err : GoError)
    (hread : ReadAll content = (before ++ record :: later, none))
    (hbefore : addPolicyFromString.loop enforcer st before = (st1, none))
    (hne : record ≠ [])
    (hrec : addPolicyFromRecord enforcer st1 record = (st2, some err)) :
    addPolicyFromString ReadAll enforcer st content =
        (st2, some (GoError.withMessage err "failed to add policy from record")) ∧
      AddPolicyFromCSV ReadAll enforcer st content =
        (st2, some (GoError.withMessage
          (GoError.withMessage err "failed to add policy from record")
          "failed to load csv policy")) ∧
      ((∃ record0 fields, record = record0 :: fields ∧ record0 ≠ "p" ∧ record0 ≠ "g" ∧
          err = GoError.fundamental ("unknown policy type: " ++ record0) ∧ st2 = st1) ∨
        (∃ fields cause, record = "p" :: fields ∧
          (err = GoError.withMessage (GoError.withMessage cause "failed to check policy")
              "failed to add policy if not exists" ∨
            err = GoError.withMessage (GoError.withMessage cause "failed to add policy")
              "failed to add policy if not exists")) ∨
        (∃ fields cause, record = "g" :: fields ∧
          (err = GoError.withMessage (GoError.withMessage cause "failed to check policy")
              "failed to add grouping policy if not exists" ∨
            err = GoError.withMessage (GoError.withMessage cause "failed to add grouping policy")
              "failed to add grouping policy if not exists"))) ∧
      (∀ log : List Call,
        AddPolicyFromCSV ReadAll (traced enforcer) (st, log) content =
          ((st2, log ++ loadCalls enforcer st (before ++ [record])),
            some (GoError.withMessage
              (GoError.withMessage err "failed to add policy from record")
              "failed to load csv policy"))) ∧
      st1 = runCalls enforcer st (loadCalls enforcer st before) ∧
      st2 = runCalls enforcer st (loadCalls enforcer st (before ++ [record])) ∧
      (loadCalls enforcer st (before ++ [record])).filter isExistenceCheck =
        existenceChecks (before ++ [record]) ∧
      (∀ m : RuleModel, (∀ r ∈ before, knownRecord r) → ¬ knownRecord record →
        ∃ m2 e, AddPolicyFromCSV ReadAll ruleModelEnforcer m content = (m2, some e) ∧
          (∀ r ∈ m.p, r ∈ m2.p) ∧ (∀ r ∈ m.g, r ∈ m2.g) ∧ ∀ r ∈ before, m2.holds r) := by
  have hcomp : ∀ {τ : Type} (e : Enforcer τ) (t t1 t2 : τ) (er : GoError),
      addPolicyFromString.loop e t before = (t1, none) →
      addPolicyFromRecord e t1 record = (t2, some er) →
      AddPolicyFromCSV ReadAll e t content =
        (t2, some (GoError.withMessage
          (GoError.withMessage er "failed to add policy from record")
          "failed to load csv policy")) := by
    intro τ e t t1 t2 er hb hr
    have h1 : addPolicyFromString ReadAll e t content =
        (t2, some (GoError.withMessage er "failed to add policy from record")) := by
      simp only [addPolicyFromString, hread]
      rw [loop_append e t t1 before _ hb]
      exact loop_cons_fail e t1 t2 record later er hne hr
    simp [AddPolicyFromCSV, h1, Wrap]
  have h1 : addPolicyFromString ReadAll enforcer st content =
      (st2, some (GoError.withMessage err "failed to add policy from record")) := by
    simp only [addPolicyFromString, hread]
    rw [loop_append enforcer st st1 before _ hbefore]
    exact loop_cons_fail enforcer st1 st2 record later err hne hrec
  have hst1 : st1 = runCalls enforcer st (loadCalls enforcer st before) :=
    (loop_traced_ok enforcer before st st1 [] hbefore).2
  have hst2 : st2 = runCalls enforcer st1 (recordCalls enforcer st1 record) := by
    have := (record_traced enforcer st1 [] record).2
    rw [hrec] at this
    exact this
  have hcalls : loadCalls enforcer st (before ++ [record]) =
      loadCalls enforcer st before ++ recordCalls enforcer st1 record := by
    rw [loadCalls_append, ← hst1]
    simp [loadCalls]
  refine ⟨h1, hcomp enforcer st st1 st2 err hbefore hrec,
    record_error_cases enforcer st1 st2 record err hne hrec, ?_, hst1, ?_,
    loadCalls_checks enforcer st _, ?_⟩
  · intro log
    have hb := (loop_traced_ok enforcer before st st1 log hbefore).1
    have hr := (record_traced enforcer st1 (log ++ loadCalls enforcer st before) record).1
    rw [hrec, ← hst2] at hr
    rw [hcomp (traced enforcer) (st, log) _ _ err hb hr, hcalls, List.append_assoc]
  · rw [hcalls, runCalls_append, ← hst1]
    exact hst2
  · intro m hknown hunknown
    obtain ⟨m1, hm1⟩ := loop_ruleModel_succeeds before m hknown
    obtain ⟨i1, i2, i3, _, _⟩ := loop_ruleModel_invariant before m m1 hm1
    cases record with
    | nil => exact absurd rfl hne
    | cons record0 fields =>
      have hp : record0 ≠ "p" := fun h => hunknown (Or.inl h)
      have hg : record0 ≠ "g" := fun h => hunknown (Or.inr h)
      have hfail : addPolicyFromRecord ruleModelEnforcer m1 (record0 :: fields) =
          (m1, some (GoError.fundamental ("unknown policy type: " ++ record0))) := by
        simp [addPolicyFromRecord, hp, hg]
      exact ⟨m1, _, hcomp ruleModelEnforcer m m1 m1 _ hm1 hfail, i1, i2, i3⟩

/-- An unknown discriminator in the third row, and a failing insertion for the
second record: the calls and rules of the earlier rows stay, the later row is
not touched. -/
theorem loader_stops_at_first_failing_record_witness :
    AddPolicyFromCSV readAllPlain (traced ruleModelEnforcer) (RuleModel.empty, [])
          "p,alice,tenant1,doc1,read\ng,alice,editors,tenant1\nx,a,b,c\np,bob,tenant1,doc1,read" =
        ((⟨[["alice", "tenant1", "doc1", "read"]], [["alice", "editors", "tenant1"]]⟩,
          [Call.HasPolicy ["alice", "tenant1", "doc1", "read"],
            Call.AddPolicy ["alice", "tenant1", "doc1", "read"],
            Call.HasGroupingPolicy ["alice", "editors", "tenant1"],
            Call.AddGroupingPolicy ["alice", "editors", "tenant1"]]),
          some (GoError.withMessage
            (GoError.withMessage (GoError.fundamental "unknown policy type: x")
              "failed to add policy from record")
            "failed to load csv policy")) ∧
      AddPolicyFromCSV readAllPlain (traced (rejecting ["bob", "tenant1", "doc1", "read"]))
          (RuleModel.empty, [])
          "p,alice,tenant1,doc1,read\n\np,bob,tenant1,doc1,read\ng,alice,editors,tenant1" =
        ((⟨[["alice", "tenant1", "doc1", "read"]], []⟩,
          [Call.HasPolicy ["alice", "tenant1", "doc1", "read"],
            Call.AddPolicy ["alice", "tenant1", "doc1", "read"],
            Call.HasPolicy ["bob", "tenant1", "doc1", "read"],
            Call.AddPolicy ["bob", "tenant1", "doc1", "read"]]),
          some (GoError.withMessage
            (GoError.withMessage
              (GoError.withMessage
                (GoError.withMessage (GoError.external "store: write failed")
                  "failed to add policy")
                "failed to add policy if not exists")
              "failed to add policy from record")
            "failed to load csv policy")) :=
  ⟨(loader_stops_at_first_failing_record readAllPlain ruleModelEnforcer
      RuleModel.empty
      ⟨[["alice", "tenant1", "doc1", "read"]], [["alice", "editors", "tenant1"]]⟩
      ⟨[["alice", "tenant1", "doc1", "read"]], [["alice", "editors", "tenant1"]]⟩
      "p,alice,tenant1,doc1,read\ng,alice,editors,tenant1\nx,a,b,c\np,bob,tenant1,doc1,read"
      [["p", "alice", "tenant1", "doc1", "read"], ["g", "alice", "editors", "tenant1"]]
      [["p", "bob", "tenant1", "doc1", "read"]] ["x", "a", "b", "c"]
      (GoError.fundamental "unknown policy type: x")
      (by decide) (by decide) (by decide) (by decide)).2.2.2.1 [],
    (loader_stops_at_first_failing_record readAllPlain
      (rejecting ["bob", "tenant1", "doc1", "read"])
      RuleModel.empty
      ⟨[["alice", "tenant1", "doc1", "read"]], []⟩
      ⟨[["alice", "tenant1", "doc1", "read"]], []⟩
      "p,alice,tenant1,doc1,read\n\np,bob,tenant1,doc1,read\ng,alice,editors,tenant1"
      [["p", "alice", "tenant1", "doc1", "read"]]
      [["g", "alice", "editors", "tenant1"]] ["p", "bob", "tenant1", "doc1", "read"]
      (GoError.withMessage
        (GoError.withMessage (GoError.external "store: write failed") "failed to add policy")
        "failed to add policy if not exists")
      (by decide) (by decide) (by decide) (by decide)).2.2.2.1 []⟩

end Authorization
